import Mathlib

/-!
Verification development for the external-process execution subsystem
(`util/procrunner.py` in the screen19 repository).

The Python module consists of three pieces:

* `_NonBlockingStreamReader` — a background thread draining a readable
  stream into an in-memory buffer (the spec's "Stream Drain");
* `_NonBlockingStreamWriter` — a background thread writing a fixed
  payload into a writable stream in chunks of at most 4096 bytes
  (the spec's "Stream Feed");
* `run_process` — the supervisor: spawns the child, attaches readers
  and, when input is supplied, a writer; polls for completion against
  an optional deadline; escalates terminate → kill on timeout; and
  assembles the result dictionary.

The embedding below translates each of these pieces.  Thread scheduling
is abstracted: each background loop is modelled as a function of the
sequence of results its stream primitive would return (`ReadResult` /
`WOutcome` events), and the supervisor's polling loop is modelled over
discrete ticks (one tick = one 0.5 s sleep), with the child process
abstracted as a `ChildProc` environment describing when it would exit
naturally and whether it responds to terminate/kill signals.
-/

/-- One result of `stream.readline()` inside
`_NonBlockingStreamReader._thread_write_stream_to_buffer`
(procrunner.py line 21): either a returned string (the empty string is
Python's end-of-stream marker) or a raised I/O error. -/
inductive ReadResult
  | line (s : String)
  | ioerror

/-- The observable state of a `_NonBlockingStreamReader` session once its
background loop has stopped running: the accumulated `_buffer` contents,
the `_terminated` flag (procrunner.py line 15/26), the `_closed` flag
(line 16/40), and whether an exception escaped the thread body (which in
the source has no handler around `readline`, lines 18-26). -/
structure ReaderState where
  buffer : String
  terminated : Bool
  closed : Bool
  threadExnEscaped : Bool

/-- The reader thread body `_thread_write_stream_to_buffer`
(procrunner.py lines 18-26): repeatedly `readline`; a non-empty line is
appended to the buffer; the empty line ends the loop and sets
`_terminated = True`.  An exhausted event list is the stream delivering
end-of-data.  There is no exception handler in the source, so an
`ioerror` event leaves the loop with `_terminated` still `False` and the
exception escaping the thread body. -/
def readLoop : List ReadResult → String → ReaderState
  | [], buf => ⟨buf, true, false, false⟩
  | ReadResult.ioerror :: _, buf => ⟨buf, false, false, true⟩
  | ReadResult.line s :: rest, buf =>
      if s = "" then ⟨buf, true, false, false⟩
      else readLoop rest (buf ++ s)

/-- `_NonBlockingStreamReader.has_finished` (procrunner.py lines 32-33). -/
def has_finished (r : ReaderState) : Bool :=
  r.terminated

/-- Errors raised by `_NonBlockingStreamReader.get_output`
(procrunner.py lines 36-39). -/
inductive ReaderErr
  | threadNotTerminated
  | doubleClosed

/-- `_NonBlockingStreamReader.get_output` (procrunner.py lines 35-43):
raises if the reader has not finished, raises if already closed,
otherwise marks the session closed and returns the full buffer. -/
def get_output (r : ReaderState) : Except ReaderErr (String × ReaderState) :=
  if has_finished r = false then Except.error ReaderErr.threadNotTerminated
  else if r.closed then Except.error ReaderErr.doubleClosed
  else Except.ok (r.buffer, { r with closed := true })

/-- One result of `stream.write(block)` inside
`_NonBlockingStreamWriter._thread_write_buffer_to_stream`
(procrunner.py lines 62-69): success, or an `IOError` with the given
`errno` (32 is the broken-pipe case handled at line 65). -/
inductive WOutcome
  | ok
  | ioError (errno : Nat)

/-- The observable state of a `_NonBlockingStreamWriter` once its
background loop has stopped running: `_buffer_len`, `_buffer_pos`,
`_terminated`, whether `stream.close()` was called, the list of blocks
actually written (in order), the errno of an exception that escaped the
thread body via the bare `raise` at line 69 (if any), and the trace of
every value `_buffer_pos` took (for stating invariants about
intermediate observation points). -/
structure WriterFinal where
  bufferLen : Nat
  bufferPos : Nat
  terminated : Bool
  streamClosed : Bool
  chunks : List (List Nat)
  threadExn : Option Nat
  trace : List Nat

/-- The block slice chosen by the writer thread body (procrunner.py
lines 58-61): `self._buffer[pos : pos + 4096]` when more than
`_max_block_len = 4096` bytes remain, else `self._buffer[pos:]`. -/
def nextBlock (data : List Nat) (pos : Nat) : List Nat :=
  if 4096 < data.length - pos then (data.drop pos).take 4096
  else data.drop pos

theorem nextBlock_length_pos {data : List Nat} {pos : Nat}
    (h : pos < data.length) : 0 < (nextBlock data pos).length := by
  unfold nextBlock
  split <;> simp only [List.length_take, List.length_drop] <;> omega

theorem nextBlock_length_le {data : List Nat} {pos : Nat} :
    (nextBlock data pos).length ≤ data.length - pos := by
  unfold nextBlock
  split <;> simp only [List.length_take, List.length_drop] <;> omega

/-- The writer thread body `_thread_write_buffer_to_stream`
(procrunner.py lines 56-74): while `_buffer_pos < _buffer_len`, slice
the next block of at most `_max_block_len = 4096` bytes and write it.
A successful write advances `_buffer_pos` by the block length.  An
`IOError` with errno 32 (broken pipe) closes the stream, sets
`_terminated` and returns; any other `IOError` is re-raised and escapes
the thread body.  When the loop exits normally the stream is closed and
`_terminated` is set.  `f n` is the outcome of the `n`-th write call. -/
def writeLoop (data : List Nat) (f : Nat → WOutcome) (attempt pos : Nat)
    (chunks : List (List Nat)) (trace : List Nat) : WriterFinal :=
  if h : pos < data.length then
    match f attempt with
    | WOutcome.ok =>
        writeLoop data f (attempt + 1) (pos + (nextBlock data pos).length)
          (chunks ++ [nextBlock data pos])
          (trace ++ [pos + (nextBlock data pos).length])
    | WOutcome.ioError e =>
        if e = 32 then ⟨data.length, pos, true, true, chunks, none, trace⟩
        else ⟨data.length, pos, false, false, chunks, some e, trace⟩
  else ⟨data.length, pos, true, true, chunks, none, trace⟩
termination_by data.length - pos
decreasing_by
  have := nextBlock_length_pos h
  omega

/-- A `_NonBlockingStreamWriter` constructed on payload `data`
(procrunner.py lines 47-78): `_buffer_pos` starts at 0 and the thread
body runs to rest.  The initial position 0 seeds the observation trace. -/
def writerRun (data : List Nat) (f : Nat → WOutcome) : WriterFinal :=
  writeLoop data f 0 0 [] [0]

/-- `_NonBlockingStreamWriter.bytes_sent` (procrunner.py lines 83-84). -/
def bytes_sent (w : WriterFinal) : Nat :=
  w.bufferPos

/-- `_NonBlockingStreamWriter.bytes_remaining` (procrunner.py lines 86-87). -/
def bytes_remaining (w : WriterFinal) : Nat :=
  w.bufferLen - w.bufferPos

/-- A signal sent by the supervisor to the child process:
`p.terminate()` (procrunner.py line 145) or `p.kill()` (lines 131, 154). -/
inductive Signal
  | terminate
  | kill

/-- Abstraction of the child process' environment, as observed by the
supervisor through `subprocess` calls.  `exitAt` is the tick (one tick
= one 0.5 s sleep of the polling loop) from which `p.poll()` would
report a natural exit with code `natCode`; `none` means the process
never exits on its own.  `termResponds`/`termCode` describe whether the
process is gone (with which code) when the supervisor re-polls after
`p.terminate()` plus its grace sleeps; `killResponds`/`killCode`
likewise for `p.kill()`.  `stdoutData`/`stderrData` are the bytes the
child writes to its output streams (the reader threads deliver them in
full once the child is gone — the reader state machine itself is
modelled separately by `readLoop`/`get_output`).  `stdinOutcomes` gives
the outcome of each successive `write` on the child's stdin pipe. -/
structure ChildProc where
  exitAt : Option Nat
  natCode : Int
  termResponds : Bool
  termCode : Int
  killResponds : Bool
  killCode : Int
  stdoutData : String
  stderrData : String
  stdinOutcomes : Nat → WOutcome

/-- What `p.poll()` reports at tick `t` while no signal has been sent:
the natural exit code once `exitAt` has passed, else still running. -/
def natPoll (c : ChildProc) (t : Nat) : Option Int :=
  match c.exitAt with
  | none => none
  | some e => if e ≤ t then some c.natCode else none

/-- The `timeit.default_timer() < max_time` half of the polling-loop
condition (procrunner.py line 123), in ticks since launch; a `timeout`
of `none` makes the condition vacuously true (line 122-123). -/
def timeoutNotReached (timeout : Option Nat) (now : Nat) : Bool :=
  match timeout with
  | none => true
  | some m => decide (now < m)

/-- How the polling loop (procrunner.py lines 122-136) ends:
interrupted by a `KeyboardInterrupt` during `time.sleep` (line 130),
or the `while` condition became false at tick `endTick` with the last
polled `returncode` being `rc`, or the step budget of the model ran out
(which can only happen when the real loop would still be running). -/
inductive LoopExit
  | interrupted
  | finished (endTick : Nat) (rc : Option Int)
  | fuelOut

/-- The polling loop of `run_process` (procrunner.py lines 122-136):
while `p.returncode is None` and the deadline (if any) has not passed,
sleep one tick — a `KeyboardInterrupt` here makes the supervisor kill
the child and re-raise — then `p.poll()`.  `interruptAt = some k` means
the sleep taken at tick `k` is interrupted.  `fuel` bounds the number
of modelled iterations; the loop itself is unbounded. -/
def pollLoop (c : ChildProc) (timeout interruptAt : Option Nat) :
    Nat → Nat → Option Int → LoopExit
  | 0, now, rc =>
      if rc = none ∧ timeoutNotReached timeout now = true then LoopExit.fuelOut
      else LoopExit.finished now rc
  | fuel + 1, now, rc =>
      if rc = none ∧ timeoutNotReached timeout now = true then
        if interruptAt = some now then LoopExit.interrupted
        else pollLoop c timeout interruptAt fuel (now + 1) (natPoll c (now + 1))
      else LoopExit.finished now rc

/-- The result dictionary built by `run_process` (procrunner.py lines
104-108 and 172-178).  `exitcode` mirrors the `exitcode` key (set from
`p.returncode`, which the spec renders as "exit_code: integer or
absent"); `timedOut` mirrors the `timeout` key; `stdinBytes` mirrors
the optional `stdin_bytes_sent`/`stdin_bytes_remain` pair, present only
when input data was supplied.  `runtime` is in ticks.  The wall-clock
`time_start`/`time_end` strings are not modelled. -/
structure RunRec where
  exitcode : Option Int
  command : List String
  stdout : String
  stderr : String
  timedOut : Bool
  runtime : Nat
  stdinBytes : Option (Nat × Nat)

/-- The exceptions `run_process` can raise: the re-raised
`KeyboardInterrupt` (procrunner.py line 133) and the
`Exception("Process won't terminate")` (line 161). -/
inductive RunErr
  | keyboardInterrupt
  | wontTerminate

/-- One invocation of `run_process` as observed from outside: the
returned record or raised exception, the signals sent to the child in
order, whether a real child was spawned (`subprocess.Popen`, line 114),
whether an stdin pipe was requested (lines 99-102), and whether a
`_NonBlockingStreamWriter` was attached (lines 117-118). -/
structure RunOutcome where
  result : Except RunErr RunRec
  signals : List Signal
  spawned : Bool
  stdinPipe : Bool
  writerAttached : Bool

/-- The module-level mutable globals of procrunner.py: `dummy = False`
(line 8).  `run_process` reads this global, not a parameter, to decide
whether to short-circuit (line 104). -/
structure Globals where
  dummy : Bool

/-- `run_process` (procrunner.py lines 89-180).  In order: the stdin
pipe flag is computed from whether input was supplied (lines 99-102);
if the global `dummy` is set, a canonical empty result is returned
without spawning (lines 104-108); otherwise the child is spawned with
readers attached, plus a writer when input was supplied (lines
114-118), and the polling loop runs (lines 122-136).  If the loop ends
with `returncode` still `None`, the timeout branch sends `terminate`
(lines 138-149); if the process is still alive, the kill branch sends
`kill` (lines 151-158); if it is alive even then, an exception is
raised (lines 160-161).  Otherwise the record is assembled (lines
163-180), including the writer's byte counts when input was supplied
(lines 176-178).  Grace-period sleeps and the drain-wait heuristic
(lines 146-148, 155-157) only affect wall-clock timing and are
abstracted into `termResponds`/`killResponds`; the readers are modelled
as having drained the full output by collection time (lines 168-169) —
the refined model `run_process_collect` below drops that assumption and
exposes the raise path of those two lines. -/
def run_process (g : Globals) (command : List String) (timeout : Option Nat)
    (stdin : Option (List Nat)) (c : ChildProc) (interruptAt : Option Nat)
    (fuel : Nat) : Option RunOutcome :=
  let stdinPipe := stdin.isSome
  if g.dummy then
    some ⟨Except.ok ⟨some 0, command, "", "", false, 0, none⟩,
          [], false, stdinPipe, false⟩
  else
    let writer := stdin.map (fun d => writerRun d c.stdinOutcomes)
    match pollLoop c timeout interruptAt fuel 0 none with
    | LoopExit.fuelOut => none
    | LoopExit.interrupted =>
        some ⟨Except.error RunErr.keyboardInterrupt, [Signal.kill],
              true, stdinPipe, writer.isSome⟩
    | LoopExit.finished endT rc =>
        let timedOut := rc.isNone
        let rc1 := match rc with
                   | some v => some v
                   | none => if c.termResponds then some c.termCode else none
        let sigs1 : List Signal := if rc.isNone then [Signal.terminate] else []
        let rc2 := match rc1 with
                   | some v => some v
                   | none => if c.killResponds then some c.killCode else none
        let sigs2 := sigs1 ++ (if rc1.isNone then [Signal.kill] else [])
        match rc2 with
        | none =>
            some ⟨Except.error RunErr.wontTerminate, sigs2,
                  true, stdinPipe, writer.isSome⟩
        | some code =>
            some ⟨Except.ok ⟨some code, command, c.stdoutData, c.stderrData,
                             timedOut, endT,
                             writer.map (fun w => (bytes_sent w, bytes_remaining w))⟩,
                  sigs2, true, stdinPipe, writer.isSome⟩

/-- The condition under which the polling loop times out: a deadline
`m` is configured and no poll at a tick `1 ≤ t ≤ m` can observe the
natural exit — i.e. the deadline elapses before the process exits on
its own (with `m = 0` the loop body never runs at all). -/
def deadlineBeatsExit (c : ChildProc) (m : Nat) : Prop :=
  ¬∃ e, c.exitAt = some e ∧ e ≤ m ∧ 1 ≤ m

/-- A sample child environment used to instantiate theorems on concrete
inputs: it exits naturally at tick 1 with code 7, responds to both
signals, writes "o"/"e" to its output streams and accepts all stdin
writes. -/
def sampleChild : ChildProc :=
  ⟨some 1, 7, true, -15, true, -9, "o", "e", fun _ => WOutcome.ok⟩

/-- The condition under which the child survives the full escalation of
`run_process`: the polling loop timed out (a deadline was configured
and beat the natural exit) and the child responds neither to
`terminate` nor to `kill`. -/
def unkillableCond (c : ChildProc) (timeout : Option Nat) : Prop :=
  (∃ m, timeout = some m ∧ deadlineBeatsExit c m)
  ∧ c.termResponds = false ∧ c.killResponds = false

/-- Exceptions observable from `run_process` once the output-collection
step is modelled: the re-raised `KeyboardInterrupt` (procrunner.py line
133), the `Exception("Process won't terminate")` (line 161), and an
exception raised by `_NonBlockingStreamReader.get_output` at line 168
or 169 when a drain has not finished. -/
inductive RunExn
  | keyboardInterrupt
  | wontTerminate
  | readerRaised (e : ReaderErr)

/-- Like `RunOutcome`, for the refined model whose result may also be a
reader exception. -/
structure RunOutcomeC where
  result : Except RunExn RunRec
  signals : List Signal
  spawned : Bool
  stdinPipe : Bool
  writerAttached : Bool

/-- The output-collection step of `run_process` (procrunner.py lines
168-169): `stdout = stdout.get_output()` then
`stderr = stderr.get_output()`; each call raises if its drain has not
finished. -/
def collectOutputs (soutE serrE : List ReadResult) :
    Except ReaderErr (String × String) :=
  match get_output (readLoop soutE "") with
  | Except.error e => Except.error e
  | Except.ok (sout, _) =>
      match get_output (readLoop serrE "") with
      | Except.error e => Except.error e
      | Except.ok (serr, _) => Except.ok (sout, serr)

/-- `run_process` (procrunner.py lines 89-180) with the output
collection of lines 168-169 modelled rather than abstracted: identical
to `run_process` except that the two drains are driven by their
streams' event sequences (`soutE`, `serrE`) and the record's
stdout/stderr come from `get_output` on each drain, whose exceptions
propagate to the caller.  This exposes the raise path that the coarser
model collapses: when an output drain has not finished —
deterministically the case after a stream read error, see
`readLoop_error_escapes` — line 168 or 169 raises to the caller even
though the child was stopped. -/
def run_process_collect (g : Globals) (command : List String)
    (timeout : Option Nat) (stdin : Option (List Nat)) (c : ChildProc)
    (soutE serrE : List ReadResult) (interruptAt : Option Nat)
    (fuel : Nat) : Option RunOutcomeC :=
  let stdinPipe := stdin.isSome
  if g.dummy then
    some ⟨Except.ok ⟨some 0, command, "", "", false, 0, none⟩,
          [], false, stdinPipe, false⟩
  else
    let writer := stdin.map (fun d => writerRun d c.stdinOutcomes)
    match pollLoop c timeout interruptAt fuel 0 none with
    | LoopExit.fuelOut => none
    | LoopExit.interrupted =>
        some ⟨Except.error RunExn.keyboardInterrupt, [Signal.kill],
              true, stdinPipe, writer.isSome⟩
    | LoopExit.finished endT rc =>
        let timedOut := rc.isNone
        let rc1 := match rc with
                   | some v => some v
                   | none => if c.termResponds then some c.termCode else none
        let sigs1 : List Signal := if rc.isNone then [Signal.terminate] else []
        let rc2 := match rc1 with
                   | some v => some v
                   | none => if c.killResponds then some c.killCode else none
        let sigs2 := sigs1 ++ (if rc1.isNone then [Signal.kill] else [])
        match rc2 with
        | none =>
            some ⟨Except.error RunExn.wontTerminate, sigs2,
                  true, stdinPipe, writer.isSome⟩
        | some code =>
            match collectOutputs soutE serrE with
            | Except.error e =>
                some ⟨Except.error (RunExn.readerRaised e), sigs2,
                      true, stdinPipe, writer.isSome⟩
            | Except.ok (sout, serr) =>
                some ⟨Except.ok ⟨some code, command, sout, serr,
                                 timedOut, endT,
                                 writer.map (fun w =>
                                   (bytes_sent w, bytes_remaining w))⟩,
                      sigs2, true, stdinPipe, writer.isSome⟩

example : writerRun [] (fun _ => WOutcome.ok) = ⟨0, 0, true, true, [], none, [0]⟩ := by
  simp [writerRun, writeLoop]
example : readLoop [ReadResult.ioerror] "" = ⟨"", false, false, true⟩ := rfl
example : (writerRun [1,2,3] (fun _ => WOutcome.ok)).chunks = [[1,2,3]] := by
  simp [writerRun, writeLoop, nextBlock]
example :
    run_process ⟨false⟩ ["x"] (some 2) none
      ⟨none, 0, true, -15, true, -9, "out", "", fun _ => WOutcome.ok⟩ none 10 =
    some ⟨Except.ok ⟨some (-15), ["x"], "out", "", true, 2, none⟩,
          [Signal.terminate], true, false, false⟩ := rfl

/-! ### Lemmas about the polling loop -/

theorem pollLoop_stop {c : ChildProc} {timeout iAt : Option Nat}
    {fuel now : Nat} {rc : Option Int}
    (h : ¬(rc = none ∧ timeoutNotReached timeout now = true)) :
    pollLoop c timeout iAt fuel now rc = LoopExit.finished now rc := by
  cases fuel <;> simp [pollLoop, h]

theorem pollLoop_zero {c : ChildProc} {timeout iAt : Option Nat} {now : Nat}
    (hc : timeoutNotReached timeout now = true) :
    pollLoop c timeout iAt 0 now none = LoopExit.fuelOut := by
  simp [pollLoop, hc]

theorem pollLoop_step {c : ChildProc} {timeout : Option Nat} {fuel now : Nat}
    (hc : timeoutNotReached timeout now = true) :
    pollLoop c timeout none (fuel + 1) now none =
      pollLoop c timeout none fuel (now + 1) (natPoll c (now + 1)) := by
  simp [pollLoop, hc]

theorem pollLoop_no_interrupt {c : ChildProc} {timeout : Option Nat} :
    ∀ fuel now rc, pollLoop c timeout none fuel now rc ≠ LoopExit.interrupted := by
  intro fuel
  induction fuel with
  | zero =>
      intro now rc
      unfold pollLoop
      split <;> simp
  | succ n ih =>
      intro now rc
      unfold pollLoop
      split
      · simpa using ih (now + 1) (natPoll c (now + 1))
      · simp

theorem natPoll_eq {c : ChildProc} {e : Nat} (hx : c.exitAt = some e) (t : Nat) :
    natPoll c t = if e ≤ t then some c.natCode else none := by
  unfold natPoll
  rw [hx]

theorem natPoll_none {c : ChildProc} (hx : c.exitAt = none) (t : Nat) :
    natPoll c t = none := by
  unfold natPoll
  rw [hx]

theorem pollLoop_zero_none {c : ChildProc} {now : Nat} :
    pollLoop c none none 0 now none = LoopExit.fuelOut :=
  pollLoop_zero rfl

theorem pollLoop_step_none {c : ChildProc} {fuel now : Nat} :
    pollLoop c none none (fuel + 1) now none =
      pollLoop c none none fuel (now + 1) (natPoll c (now + 1)) :=
  pollLoop_step rfl

/-- With no deadline and a child that never exits, the polling loop
never finishes: the supervisor waits indefinitely. -/
theorem pollLoop_noTimeout_noExit {c : ChildProc} (he : c.exitAt = none) :
    ∀ fuel now, pollLoop c none none fuel now none = LoopExit.fuelOut := by
  intro fuel
  induction fuel with
  | zero =>
      intro now
      exact pollLoop_zero_none
  | succ n ih =>
      intro now
      rw [pollLoop_step_none, natPoll_none he]
      exact ih (now + 1)

/-- With no deadline, when the loop does finish it is because a poll
observed the natural exit. -/
theorem pollLoop_noTimeout_finished_some {c : ChildProc} :
    ∀ fuel now endT rc,
      pollLoop c none none fuel now none = LoopExit.finished endT rc →
      rc = some c.natCode := by
  intro fuel
  induction fuel with
  | zero =>
      intro now endT rc h
      rw [pollLoop_zero_none] at h
      cases h
  | succ n ih =>
      intro now endT rc h
      rw [pollLoop_step_none] at h
      rcases hp : natPoll c (now + 1) with _ | v
      · exact ih (now + 1) endT rc (by rwa [hp] at h)
      · rw [hp, pollLoop_stop (by simp)] at h
        cases h
        rcases hx : c.exitAt with _ | e
        · rw [natPoll_none hx] at hp
          cases hp
        · rw [natPoll_eq hx] at hp
          by_cases hle : e ≤ now + 1
          · rw [if_pos hle] at hp
            exact hp.symm
          · rw [if_neg hle] at hp
            cases hp

/-- With a deadline `m` that beats the natural exit, the loop runs to
tick `m` and finishes with the child still running. -/
theorem pollLoop_timeout_noExit {c : ChildProc} {m : Nat}
    (he : deadlineBeatsExit c m) :
    ∀ fuel now, now ≤ m → m ≤ fuel + now →
      pollLoop c (some m) none fuel now none = LoopExit.finished m none := by
  intro fuel
  induction fuel with
  | zero =>
      intro now h1 h2
      have : now = m := by omega
      subst this
      exact pollLoop_stop (by simp [timeoutNotReached])
  | succ n ih =>
      intro now h1 h2
      rcases Nat.lt_or_ge now m with hlt | hge
      · rw [pollLoop_step (by simp [timeoutNotReached, hlt])]
        have hpoll : natPoll c (now + 1) = none := by
          rcases hx : c.exitAt with _ | e
          · exact natPoll_none hx (now + 1)
          · rw [natPoll_eq hx, if_neg]
            intro hle
            exact he ⟨e, hx, by omega, by omega⟩
        rw [hpoll]
        exact ih (now + 1) (by omega) (by omega)
      · have : now = m := by omega
        subst this
        exact pollLoop_stop (by simp [timeoutNotReached])

/-- With a deadline `m` that beats the natural exit but not enough fuel
to reach it, the model's step budget runs out (the real loop would
still be polling). -/
theorem pollLoop_timeout_fuelOut {c : ChildProc} {m : Nat}
    (he : deadlineBeatsExit c m) :
    ∀ fuel now, now ≤ m → fuel + now < m →
      pollLoop c (some m) none fuel now none = LoopExit.fuelOut := by
  intro fuel
  induction fuel with
  | zero =>
      intro now h1 h2
      exact pollLoop_zero (by simp [timeoutNotReached]; omega)
  | succ n ih =>
      intro now h1 h2
      rw [pollLoop_step (by simp [timeoutNotReached]; omega)]
      have hpoll : natPoll c (now + 1) = none := by
        rcases hx : c.exitAt with _ | e
        · exact natPoll_none hx (now + 1)
        · rw [natPoll_eq hx, if_neg]
          intro hle
          exact he ⟨e, hx, by omega, by omega⟩
      rw [hpoll]
      exact ih (now + 1) (by omega) (by omega)

/-- With a deadline `m ≥ 1` and a natural exit at `e ≤ m`, the loop
finishes at tick `max e 1` having observed the natural exit. -/
theorem pollLoop_timeout_exit {c : ChildProc} {m e : Nat}
    (hx : c.exitAt = some e) (h1 : e ≤ m) (hm : 1 ≤ m) :
    ∀ fuel now, now < max e 1 → max e 1 ≤ fuel + now →
      pollLoop c (some m) none fuel now none =
        LoopExit.finished (max e 1) (some c.natCode) := by
  intro fuel
  induction fuel with
  | zero =>
      intro now hlt hle
      omega
  | succ n ih =>
      intro now hlt hle
      have hnowm : now < m := by omega
      rw [pollLoop_step (by simp [timeoutNotReached, hnowm])]
      rcases Nat.lt_or_ge (now + 1) (max e 1) with hlt2 | hge2
      · have hpoll : natPoll c (now + 1) = none := by
          rw [natPoll_eq hx, if_neg]
          omega
        rw [hpoll]
        exact ih (now + 1) hlt2 (by omega)
      · have heq : now + 1 = max e 1 := by omega
        have hpoll : natPoll c (now + 1) = some c.natCode := by
          rw [natPoll_eq hx, if_pos]
          omega
        rw [hpoll, pollLoop_stop (by simp), heq]

/-- With no deadline and a natural exit at `e`, the loop finishes at
tick `max e 1` having observed the natural exit. -/
theorem pollLoop_noTimeout_exit {c : ChildProc} {e : Nat}
    (hx : c.exitAt = some e) :
    ∀ fuel now, now < max e 1 → max e 1 ≤ fuel + now →
      pollLoop c none none fuel now none =
        LoopExit.finished (max e 1) (some c.natCode) := by
  intro fuel
  induction fuel with
  | zero =>
      intro now hlt hle
      omega
  | succ n ih =>
      intro now hlt hle
      rw [pollLoop_step_none]
      rcases Nat.lt_or_ge (now + 1) (max e 1) with hlt2 | hge2
      · have hpoll : natPoll c (now + 1) = none := by
          rw [natPoll_eq hx, if_neg]
          omega
        rw [hpoll]
        exact ih (now + 1) hlt2 (by omega)
      · have heq : now + 1 = max e 1 := by omega
        have hpoll : natPoll c (now + 1) = some c.natCode := by
          rw [natPoll_eq hx, if_pos]
          omega
        rw [hpoll, pollLoop_stop (by simp), heq]



/-- With a deadline, a natural exit at `e ≤ m` (with `m ≥ 1`) but not
enough fuel, the model's step budget runs out before the exit is
observed. -/
theorem pollLoop_timeout_exit_fuelOut {c : ChildProc} {m e : Nat}
    (hx : c.exitAt = some e) (h1 : e ≤ m) (hm : 1 ≤ m) :
    ∀ fuel now, fuel + now < max e 1 →
      pollLoop c (some m) none fuel now none = LoopExit.fuelOut := by
  intro fuel
  induction fuel with
  | zero =>
      intro now h2
      exact pollLoop_zero (by simp [timeoutNotReached]; omega)
  | succ n ih =>
      intro now h2
      rw [pollLoop_step (by simp [timeoutNotReached]; omega)]
      have hpoll : natPoll c (now + 1) = none := by
        rw [natPoll_eq hx, if_neg]
        omega
      rw [hpoll]
      exact ih (now + 1) (by omega)

/-- Characterization of the final `returncode` of a finished polling
loop started from launch: it is `none` exactly when a deadline is
configured and it beats the natural exit. -/
theorem pollLoop_finished_rc_none_iff {c : ChildProc} {timeout : Option Nat}
    {fuel endT : Nat} {rc : Option Int}
    (h : pollLoop c timeout none fuel 0 none = LoopExit.finished endT rc) :
    (rc = none ↔ ∃ m, timeout = some m ∧ deadlineBeatsExit c m) := by
  rcases timeout with _ | m
  · have hsome := pollLoop_noTimeout_finished_some fuel 0 endT rc h
    constructor
    · intro hrc
      rw [hrc] at hsome
      cases hsome
    · rintro ⟨m, hm, -⟩
      cases hm
  · by_cases hb : deadlineBeatsExit c m
    · rcases Nat.lt_or_ge fuel m with hf | hf
      · rw [pollLoop_timeout_fuelOut hb fuel 0 (by omega) (by omega)] at h
        cases h
      · rw [pollLoop_timeout_noExit hb fuel 0 (by omega) (by omega)] at h
        cases h
        exact ⟨fun _ => ⟨_, rfl, hb⟩, fun _ => rfl⟩
    · have hb' : ∃ e, c.exitAt = some e ∧ e ≤ m ∧ 1 ≤ m := not_not.mp hb
      rcases hb' with ⟨e, hx, h1, hm⟩
      rcases Nat.lt_or_ge fuel (max e 1) with hf | hf
      · rw [pollLoop_timeout_exit_fuelOut hx h1 hm fuel 0 (by omega)] at h
        cases h
      · rw [pollLoop_timeout_exit hx h1 hm fuel 0 (by omega) (by omega)] at h
        cases h
        constructor
        · intro hrc
          cases hrc
        · rintro ⟨m', hm', hbe⟩
          cases hm'
          exact absurd hbe hb

/-! ### Lemmas about the writer loop -/

theorem nextBlock_length_le_4096 {data : List Nat} {pos : Nat} :
    (nextBlock data pos).length ≤ 4096 := by
  unfold nextBlock
  split <;> simp only [List.length_take, List.length_drop] <;> omega

/-- Writing the block chosen at `pos` extends the prefix of the payload
written so far into the prefix of length `pos + (block length)`. -/
theorem take_append_nextBlock {data : List Nat} {pos : Nat}
    (h : pos < data.length) :
    data.take pos ++ nextBlock data pos =
      data.take (pos + (nextBlock data pos).length) := by
  unfold nextBlock
  split
  · rw [List.length_take, List.length_drop]
    have h4 : min 4096 (data.length - pos) = 4096 := by omega
    rw [h4, List.take_add]
  · rw [List.length_drop]
    have hlen : pos + (data.length - pos) = data.length := by omega
    rw [hlen, List.take_length, List.take_append_drop]

theorem writeLoop_bufferLen (data : List Nat) (f : Nat → WOutcome) :
    ∀ attempt pos chunks trace,
      (writeLoop data f attempt pos chunks trace).bufferLen = data.length := by
  intro attempt pos chunks trace
  induction attempt, pos, chunks, trace using writeLoop.induct data f with
  | case1 attempt pos chunks trace h heq ih =>
      rw [writeLoop]
      simp only [dif_pos h, heq]
      exact ih
  | case2 attempt pos chunks trace h heq =>
      rw [writeLoop]
      simp [h, heq]
  | case3 attempt pos chunks trace h e heq hne =>
      rw [writeLoop]
      simp [h, heq, hne]
  | case4 attempt pos chunks trace h =>
      rw [writeLoop]
      simp [h]

theorem writeLoop_pos_le (data : List Nat) (f : Nat → WOutcome) :
    ∀ attempt pos chunks trace, pos ≤ data.length →
      (writeLoop data f attempt pos chunks trace).bufferPos ≤ data.length := by
  intro attempt pos chunks trace
  induction attempt, pos, chunks, trace using writeLoop.induct data f with
  | case1 attempt pos chunks trace h heq ih =>
      intro _
      rw [writeLoop]
      simp only [dif_pos h, heq]
      have hb := @nextBlock_length_le data pos
      exact ih (by omega)
  | case2 attempt pos chunks trace h heq =>
      intro hle
      rw [writeLoop]
      simp [h, heq, hle]
  | case3 attempt pos chunks trace h e heq hne =>
      intro hle
      rw [writeLoop]
      simp [h, heq, hne, hle]
  | case4 attempt pos chunks trace h =>
      intro hle
      rw [writeLoop]
      simp [h, hle]

/-- Every intermediate value of `_buffer_pos` recorded in the trace is
bounded by the payload length. -/
theorem writeLoop_trace_le (data : List Nat) (f : Nat → WOutcome) :
    ∀ attempt pos chunks trace, pos ≤ data.length →
      (∀ p ∈ trace, p ≤ data.length) →
      ∀ p ∈ (writeLoop data f attempt pos chunks trace).trace,
        p ≤ data.length := by
  intro attempt pos chunks trace
  induction attempt, pos, chunks, trace using writeLoop.induct data f with
  | case1 attempt pos chunks trace h heq ih =>
      intro hle htr
      rw [writeLoop]
      simp only [dif_pos h, heq]
      have hb := @nextBlock_length_le data pos
      refine ih (by omega) ?_
      intro p hp
      rcases List.mem_append.mp hp with hp | hp
      · exact htr p hp
      · rcases List.mem_singleton.mp hp with rfl
        omega
  | case2 attempt pos chunks trace h heq =>
      intro hle htr
      rw [writeLoop]
      simp only [dif_pos h, heq]
      simpa using htr
  | case3 attempt pos chunks trace h e heq hne =>
      intro hle htr
      rw [writeLoop]
      simp only [dif_pos h, heq]
      rw [if_neg hne]
      simpa using htr
  | case4 attempt pos chunks trace h =>
      intro hle htr
      rw [writeLoop]
      simp only [dif_neg h]
      simpa using htr

/-- Flag discipline of the writer loop: when no exception escapes the
thread body, the loop ended with the stream closed and `_terminated`
set (either by completing the payload or by absorbing a broken pipe);
when an exception escapes, its errno is not 32 and neither flag was
set. -/
theorem writeLoop_flags (data : List Nat) (f : Nat → WOutcome) :
    ∀ attempt pos chunks trace,
      ((writeLoop data f attempt pos chunks trace).threadExn = none →
        (writeLoop data f attempt pos chunks trace).terminated = true ∧
        (writeLoop data f attempt pos chunks trace).streamClosed = true)
      ∧ (∀ e, (writeLoop data f attempt pos chunks trace).threadExn = some e →
        (writeLoop data f attempt pos chunks trace).terminated = false ∧
        (writeLoop data f attempt pos chunks trace).streamClosed = false ∧
        e ≠ 32) := by
  intro attempt pos chunks trace
  induction attempt, pos, chunks, trace using writeLoop.induct data f with
  | case1 attempt pos chunks trace h heq ih =>
      rw [writeLoop]
      simp only [dif_pos h, heq]
      exact ih
  | case2 attempt pos chunks trace h heq =>
      rw [writeLoop]
      simp [h, heq]
  | case3 attempt pos chunks trace h e heq hne =>
      rw [writeLoop]
      simp only [dif_pos h, heq]
      rw [if_neg hne]
      constructor
      · intro hx
        cases hx
      · intro e' he'
        cases he'
        exact ⟨rfl, rfl, hne⟩
  | case4 attempt pos chunks trace h =>
      rw [writeLoop]
      simp [h]

/-- When every write succeeds, the loop writes the whole payload as
successive blocks of at most 4096 bytes whose concatenation, appended
to what was already written, is exactly the payload; it then closes
the stream and terminates with `_buffer_pos` at the payload length. -/
theorem writeLoop_all_ok (data : List Nat) (f : Nat → WOutcome)
    (hall : ∀ n, f n = WOutcome.ok) :
    ∀ attempt pos chunks trace, pos ≤ data.length →
      chunks.flatten = data.take pos →
      (∀ b ∈ chunks, b.length ≤ 4096) →
      (writeLoop data f attempt pos chunks trace).bufferPos = data.length
      ∧ (writeLoop data f attempt pos chunks trace).chunks.flatten = data
      ∧ (∀ b ∈ (writeLoop data f attempt pos chunks trace).chunks,
          b.length ≤ 4096)
      ∧ (writeLoop data f attempt pos chunks trace).terminated = true
      ∧ (writeLoop data f attempt pos chunks trace).streamClosed = true
      ∧ (writeLoop data f attempt pos chunks trace).threadExn = none := by
  intro attempt pos chunks trace
  induction attempt, pos, chunks, trace using writeLoop.induct data f with
  | case1 attempt pos chunks trace h heq ih =>
      intro hle hjoin hbnd
      rw [writeLoop]
      simp only [dif_pos h, heq]
      have hb := @nextBlock_length_le data pos
      refine ih (by omega) ?_ ?_
      · rw [List.flatten_append]
        simp only [List.flatten_cons, List.flatten_nil, List.append_nil]
        rw [hjoin]
        exact take_append_nextBlock h
      · intro b hb'
        rcases List.mem_append.mp hb' with hb' | hb'
        · exact hbnd b hb'
        · rcases List.mem_singleton.mp hb' with rfl
          exact nextBlock_length_le_4096
  | case2 attempt pos chunks trace h heq =>
      intro _ _ _
      rw [hall attempt] at heq
      cases heq
  | case3 attempt pos chunks trace h e heq hne =>
      intro _ _ _
      rw [hall attempt] at heq
      cases heq
  | case4 attempt pos chunks trace h =>
      intro hle hjoin hbnd
      have hpos : pos = data.length := by omega
      rw [writeLoop]
      simp only [dif_neg h]
      subst hpos
      rw [List.take_length] at hjoin
      exact ⟨by trivial, hjoin, hbnd, by trivial, by trivial, by trivial⟩

/-- A broken pipe (`IOError` with errno 32) at any point of the loop
stops the writer immediately: the stream is closed, `_terminated` is
set, no exception escapes, and `_buffer_pos` stays where it was. -/
theorem writeLoop_broken_pipe {data : List Nat} {f : Nat → WOutcome}
    {attempt pos : Nat} {chunks : List (List Nat)} {trace : List Nat}
    (h : pos < data.length) (heq : f attempt = WOutcome.ioError 32) :
    writeLoop data f attempt pos chunks trace =
      ⟨data.length, pos, true, true, chunks, none, trace⟩ := by
  rw [writeLoop]
  simp [h, heq]

/-- Any other write error (errno other than 32) escapes the loop via
the bare re-raise: the stream is not closed, `_terminated` stays false
and the errno is recorded as the escaped exception. -/
theorem writeLoop_other_error {data : List Nat} {f : Nat → WOutcome}
    {attempt pos : Nat} {chunks : List (List Nat)} {trace : List Nat}
    {e : Nat} (h : pos < data.length) (heq : f attempt = WOutcome.ioError e)
    (hne : e ≠ 32) :
    writeLoop data f attempt pos chunks trace =
      ⟨data.length, pos, false, false, chunks, some e, trace⟩ := by
  rw [writeLoop]
  simp only [dif_pos h, heq]
  rw [if_neg hne]

/-! ### Shape lemmas for run_process -/

/-- With the global `dummy` set, `run_process` short-circuits to the
canonical empty result without spawning anything. -/
theorem run_process_dummy (cmd : List String) (timeout : Option Nat)
    (stdin : Option (List Nat)) (c : ChildProc) (iAt : Option Nat)
    (fuel : Nat) :
    run_process ⟨true⟩ cmd timeout stdin c iAt fuel =
      some ⟨Except.ok ⟨some 0, cmd, "", "", false, 0, none⟩,
            [], false, stdin.isSome, false⟩ := by
  unfold run_process
  simp

theorem run_process_fuelOut {cmd : List String} {timeout : Option Nat}
    {stdin : Option (List Nat)} {c : ChildProc} {iAt : Option Nat}
    {fuel : Nat}
    (hpl : pollLoop c timeout iAt fuel 0 none = LoopExit.fuelOut) :
    run_process ⟨false⟩ cmd timeout stdin c iAt fuel = none := by
  unfold run_process
  simp [hpl]

theorem run_process_interrupted {cmd : List String} {timeout : Option Nat}
    {stdin : Option (List Nat)} {c : ChildProc} {iAt : Option Nat}
    {fuel : Nat}
    (hpl : pollLoop c timeout iAt fuel 0 none = LoopExit.interrupted) :
    run_process ⟨false⟩ cmd timeout stdin c iAt fuel =
      some ⟨Except.error RunErr.keyboardInterrupt, [Signal.kill],
            true, stdin.isSome, stdin.isSome⟩ := by
  unfold run_process
  simp [hpl]

/-- Natural exit observed by the polling loop: no signal is sent, the
record is assembled directly with `timedOut = false`. -/
theorem run_process_finished_some {cmd : List String} {timeout : Option Nat}
    {stdin : Option (List Nat)} {c : ChildProc} {iAt : Option Nat}
    {fuel endT : Nat} {v : Int}
    (hpl : pollLoop c timeout iAt fuel 0 none = LoopExit.finished endT (some v)) :
    run_process ⟨false⟩ cmd timeout stdin c iAt fuel =
      some ⟨Except.ok ⟨some v, cmd, c.stdoutData, c.stderrData, false, endT,
              stdin.map (fun d => (bytes_sent (writerRun d c.stdinOutcomes),
                                   bytes_remaining (writerRun d c.stdinOutcomes)))⟩,
            [], true, stdin.isSome, stdin.isSome⟩ := by
  unfold run_process
  simp [hpl, Option.map_map]
  rfl

/-- Timeout with a child that dies on `terminate`. -/
theorem run_process_timeout_term {cmd : List String} {timeout : Option Nat}
    {stdin : Option (List Nat)} {c : ChildProc} {iAt : Option Nat}
    {fuel endT : Nat}
    (hpl : pollLoop c timeout iAt fuel 0 none = LoopExit.finished endT none)
    (htr : c.termResponds = true) :
    run_process ⟨false⟩ cmd timeout stdin c iAt fuel =
      some ⟨Except.ok ⟨some c.termCode, cmd, c.stdoutData, c.stderrData, true, endT,
              stdin.map (fun d => (bytes_sent (writerRun d c.stdinOutcomes),
                                   bytes_remaining (writerRun d c.stdinOutcomes)))⟩,
            [Signal.terminate], true, stdin.isSome, stdin.isSome⟩ := by
  unfold run_process
  simp [hpl, htr, Option.map_map]
  rfl

/-- Timeout with a child that survives `terminate` but dies on `kill`. -/
theorem run_process_timeout_kill {cmd : List String} {timeout : Option Nat}
    {stdin : Option (List Nat)} {c : ChildProc} {iAt : Option Nat}
    {fuel endT : Nat}
    (hpl : pollLoop c timeout iAt fuel 0 none = LoopExit.finished endT none)
    (htr : c.termResponds = false) (hk : c.killResponds = true) :
    run_process ⟨false⟩ cmd timeout stdin c iAt fuel =
      some ⟨Except.ok ⟨some c.killCode, cmd, c.stdoutData, c.stderrData, true, endT,
              stdin.map (fun d => (bytes_sent (writerRun d c.stdinOutcomes),
                                   bytes_remaining (writerRun d c.stdinOutcomes)))⟩,
            [Signal.terminate, Signal.kill], true, stdin.isSome, stdin.isSome⟩ := by
  unfold run_process
  simp [hpl, htr, hk, Option.map_map]
  rfl

/-- Timeout with a child that survives the whole escalation: the
exception is raised after both signals were sent. -/
theorem run_process_unkillable {cmd : List String} {timeout : Option Nat}
    {stdin : Option (List Nat)} {c : ChildProc} {iAt : Option Nat}
    {fuel endT : Nat}
    (hpl : pollLoop c timeout iAt fuel 0 none = LoopExit.finished endT none)
    (htr : c.termResponds = false) (hk : c.killResponds = false) :
    run_process ⟨false⟩ cmd timeout stdin c iAt fuel =
      some ⟨Except.error RunErr.wontTerminate, [Signal.terminate, Signal.kill],
            true, stdin.isSome, stdin.isSome⟩ := by
  unfold run_process
  simp [hpl, htr, hk]

/-! ### Claim theorems -/

/-- C3: for every Stream Drain session, `get_output` called before the
drain reports finished raises an explicit error and returns no data;
the first call after it has finished returns the entire accumulated
buffer and invalidates the session (`_closed` becomes true); and every
call on an invalidated session raises an explicit error — it never
returns partial or stale data. -/
theorem get_output_one_shot (r : ReaderState) :
    (has_finished r = false →
      get_output r = Except.error ReaderErr.threadNotTerminated)
    ∧ (has_finished r = true → r.closed = false →
      get_output r = Except.ok (r.buffer, { r with closed := true })
      ∧ get_output { r with closed := true } =
          Except.error ReaderErr.doubleClosed)
    ∧ (r.closed = true →
      get_output r = Except.error ReaderErr.threadNotTerminated
      ∨ get_output r = Except.error ReaderErr.doubleClosed) := by
  rcases r with ⟨b, t, cl, ex⟩
  unfold get_output has_finished
  cases t <;> cases cl <;> simp

theorem get_output_one_shot_witness :
    (has_finished ⟨"ab", true, false, false⟩ = false →
      get_output ⟨"ab", true, false, false⟩ =
        Except.error ReaderErr.threadNotTerminated)
    ∧ (has_finished ⟨"ab", true, false, false⟩ = true →
      (⟨"ab", true, false, false⟩ : ReaderState).closed = false →
      get_output ⟨"ab", true, false, false⟩ =
        Except.ok ((⟨"ab", true, false, false⟩ : ReaderState).buffer,
                   ⟨"ab", true, true, false⟩)
      ∧ get_output ⟨"ab", true, true, false⟩ =
          Except.error ReaderErr.doubleClosed)
    ∧ ((⟨"ab", true, false, false⟩ : ReaderState).closed = true →
      get_output ⟨"ab", true, false, false⟩ =
        Except.error ReaderErr.threadNotTerminated
      ∨ get_output ⟨"ab", true, false, false⟩ =
          Except.error ReaderErr.doubleClosed) :=
  get_output_one_shot ⟨"ab", true, false, false⟩

/-- C4, counterexample: a read error during the drain's loop is NOT
treated as end-of-stream.  On the event sequence consisting of a single
raising `readline`, the loop ends with `_terminated` still false (the
has-finished query never becomes true), the exception escapes the
thread body, and `get_output` fails rather than returning the partial
buffer — contradicting the claim that finished becomes true, that no
error escapes, and that the buffer remains retrievable. -/
theorem readLoop_error_cex :
    (readLoop [ReadResult.ioerror] "").terminated = false
    ∧ (readLoop [ReadResult.ioerror] "").threadExnEscaped = true
    ∧ has_finished (readLoop [ReadResult.ioerror] "") = false
    ∧ get_output (readLoop [ReadResult.ioerror] "") =
        Except.error ReaderErr.threadNotTerminated :=
  ⟨rfl, rfl, rfl, rfl⟩

theorem readLoop_error_escapes_aux :
    ∀ (pre : List String) (suf : List ReadResult) (buf : String),
      (∀ s ∈ pre, s ≠ "") →
      readLoop (pre.map ReadResult.line ++ ReadResult.ioerror :: suf) buf =
        ⟨pre.foldl (fun b s => b ++ s) buf, false, false, true⟩ := by
  intro pre
  induction pre with
  | nil =>
      intro suf buf _
      rfl
  | cons p ps ih =>
      intro suf buf hne
      have hp : p ≠ "" := hne p (by simp)
      simp only [List.map_cons, List.cons_append, readLoop, if_neg hp,
        List.foldl_cons]
      exact ih suf (buf ++ p) (fun s hs => hne s (by simp [hs]))

/-- C4, amended: any error raised while reading the stream terminates
the drain's read loop, but it escapes the thread body rather than
being treated as end-of-stream: the has-finished query remains false,
and although the partially accumulated buffer (everything read before
the error) is retained in the session state, `get_output` raises
rather than returning it. -/
theorem readLoop_error_escapes (pre : List String) (suf : List ReadResult)
    (buf : String) (hne : ∀ s ∈ pre, s ≠ "") :
    readLoop (pre.map ReadResult.line ++ ReadResult.ioerror :: suf) buf =
      ⟨pre.foldl (fun b s => b ++ s) buf, false, false, true⟩
    ∧ has_finished
        (readLoop (pre.map ReadResult.line ++ ReadResult.ioerror :: suf) buf)
        = false
    ∧ get_output
        (readLoop (pre.map ReadResult.line ++ ReadResult.ioerror :: suf) buf)
        = Except.error ReaderErr.threadNotTerminated := by
  have hmain := readLoop_error_escapes_aux pre suf buf hne
  refine ⟨hmain, ?_, ?_⟩
  · rw [hmain]
    rfl
  · rw [hmain]
    rfl

theorem readLoop_error_escapes_witness :
    (∀ s ∈ ["a", "b"], s ≠ "")
    ∧ (readLoop (["a", "b"].map ReadResult.line ++
          ReadResult.ioerror :: []) "" =
        ⟨["a", "b"].foldl (fun b s => b ++ s) "", false, false, true⟩
      ∧ has_finished (readLoop (["a", "b"].map ReadResult.line ++
          ReadResult.ioerror :: []) "") = false
      ∧ get_output (readLoop (["a", "b"].map ReadResult.line ++
          ReadResult.ioerror :: []) "") =
          Except.error ReaderErr.threadNotTerminated) :=
  ⟨by decide, readLoop_error_escapes ["a", "b"] [] "" (by decide)⟩

/-- C7: for every payload and every Stream Feed whose writes all
succeed, the feed writes the payload as successive chunks each of at
most 4096 bytes, covering the payload in order with no byte written
twice or skipped (the concatenation of the written chunks is exactly
the payload); afterwards the stream is closed, the feed reports
finished, bytes-sent equals the payload length and bytes-remaining is
zero. -/
theorem writerRun_chunking (d : List Nat) (f : Nat → WOutcome)
    (hall : ∀ n, f n = WOutcome.ok) :
    (writerRun d f).chunks.flatten = d
    ∧ (∀ b ∈ (writerRun d f).chunks, b.length ≤ 4096)
    ∧ (writerRun d f).terminated = true
    ∧ (writerRun d f).streamClosed = true
    ∧ bytes_sent (writerRun d f) = d.length
    ∧ bytes_remaining (writerRun d f) = 0
    ∧ (writerRun d f).threadExn = none := by
  have h := writeLoop_all_ok d f hall 0 0 [] [0] (by omega) (by simp) (by simp)
  have hlen := writeLoop_bufferLen d f 0 0 [] [0]
  unfold writerRun bytes_sent bytes_remaining at *
  refine ⟨h.2.1, h.2.2.1, h.2.2.2.1, h.2.2.2.2.1, h.1, ?_, h.2.2.2.2.2⟩
  have h1 := h.1
  omega

theorem writerRun_chunking_witness :
    (∀ n, (fun _ : Nat => WOutcome.ok) n = WOutcome.ok)
    ∧ ((writerRun [1, 2, 3] (fun _ => WOutcome.ok)).chunks.flatten = [1, 2, 3]
      ∧ (∀ b ∈ (writerRun [1, 2, 3] (fun _ => WOutcome.ok)).chunks,
          b.length ≤ 4096)
      ∧ (writerRun [1, 2, 3] (fun _ => WOutcome.ok)).terminated = true
      ∧ (writerRun [1, 2, 3] (fun _ => WOutcome.ok)).streamClosed = true
      ∧ bytes_sent (writerRun [1, 2, 3] (fun _ => WOutcome.ok)) =
          ([1, 2, 3] : List Nat).length
      ∧ bytes_remaining (writerRun [1, 2, 3] (fun _ => WOutcome.ok)) = 0
      ∧ (writerRun [1, 2, 3] (fun _ => WOutcome.ok)).threadExn = none) :=
  ⟨fun _ => rfl, writerRun_chunking [1, 2, 3] (fun _ => WOutcome.ok) (fun _ => rfl)⟩

/-- C5: a broken-pipe write failure (errno 32) makes the feed stop
writing immediately, close its side of the stream and mark itself
finished, with no exception escaping and `_buffer_pos` (hence
bytes-remaining) frozen at the failure point; any other write failure
escapes the write loop as an error, leaving the feed unfinished.  At
the level of `run_process`, no writer failure is ever raised to the
caller: the only raisable conditions are the re-raised interrupt and
the unkillable-process error. -/
theorem writer_broken_pipe_policy (d : List Nat) (f : Nat → WOutcome) :
    (∀ attempt pos chunks trace, pos < d.length →
      f attempt = WOutcome.ioError 32 →
      writeLoop d f attempt pos chunks trace =
        ⟨d.length, pos, true, true, chunks, none, trace⟩)
    ∧ (∀ attempt pos chunks trace e, pos < d.length →
      f attempt = WOutcome.ioError e → e ≠ 32 →
      writeLoop d f attempt pos chunks trace =
        ⟨d.length, pos, false, false, chunks, some e, trace⟩)
    ∧ (∀ e, (writerRun d f).threadExn = some e →
      e ≠ 32 ∧ (writerRun d f).terminated = false)
    ∧ ((writerRun d f).threadExn = none →
      (writerRun d f).terminated = true ∧ (writerRun d f).streamClosed = true)
    ∧ (∀ g cmd timeout iAt fuel c o err,
        run_process g cmd timeout (some d) c iAt fuel = some o →
        o.result = Except.error err →
        err = RunErr.keyboardInterrupt ∨ err = RunErr.wontTerminate) := by
  have hflags := writeLoop_flags d f 0 0 [] [0]
  refine ⟨?_, ?_, ?_, hflags.1, ?_⟩
  · intro attempt pos chunks trace h heq
    exact writeLoop_broken_pipe h heq
  · intro attempt pos chunks trace e h heq hne
    exact writeLoop_other_error h heq hne
  · intro e he
    have := hflags.2 e he
    exact ⟨this.2.2, this.1⟩
  · intro g cmd timeout iAt fuel c o err _ _
    cases err
    · exact Or.inl rfl
    · exact Or.inr rfl

theorem writer_broken_pipe_policy_witness :
    (∀ attempt pos chunks trace, pos < ([5, 6] : List Nat).length →
      (fun _ : Nat => WOutcome.ioError 32) attempt = WOutcome.ioError 32 →
      writeLoop [5, 6] (fun _ => WOutcome.ioError 32) attempt pos chunks trace =
        ⟨([5, 6] : List Nat).length, pos, true, true, chunks, none, trace⟩)
    ∧ (∀ attempt pos chunks trace e, pos < ([5, 6] : List Nat).length →
      (fun _ : Nat => WOutcome.ioError 32) attempt = WOutcome.ioError e → e ≠ 32 →
      writeLoop [5, 6] (fun _ => WOutcome.ioError 32) attempt pos chunks trace =
        ⟨([5, 6] : List Nat).length, pos, false, false, chunks, some e, trace⟩)
    ∧ (∀ e, (writerRun [5, 6] (fun _ => WOutcome.ioError 32)).threadExn = some e →
      e ≠ 32 ∧ (writerRun [5, 6] (fun _ => WOutcome.ioError 32)).terminated = false)
    ∧ ((writerRun [5, 6] (fun _ => WOutcome.ioError 32)).threadExn = none →
      (writerRun [5, 6] (fun _ => WOutcome.ioError 32)).terminated = true
      ∧ (writerRun [5, 6] (fun _ => WOutcome.ioError 32)).streamClosed = true)
    ∧ (∀ g cmd timeout iAt fuel c o err,
        run_process g cmd timeout (some [5, 6]) c iAt fuel = some o →
        o.result = Except.error err →
        err = RunErr.keyboardInterrupt ∨ err = RunErr.wontTerminate) :=
  writer_broken_pipe_policy [5, 6] (fun _ => WOutcome.ioError 32)

/-- C6: whenever `run_process` returns a record, the stdin byte-count
pair is present in the record exactly when an input payload was
supplied, and its two components sum to the payload length; moreover
at every intermediate observation point of the feed (every value
`_buffer_pos` takes), bytes-sent plus bytes-remaining equals the
payload length. -/
theorem stdin_byte_accounting (cmd : List String) (timeout : Option Nat)
    (stdin : Option (List Nat)) (c : ChildProc) (fuel : Nat)
    (o : RunOutcome) (r : RunRec)
    (hrun : run_process ⟨false⟩ cmd timeout stdin c none fuel = some o)
    (hok : o.result = Except.ok r) :
    (r.stdinBytes.isSome = stdin.isSome)
    ∧ (∀ d s rem, stdin = some d → r.stdinBytes = some (s, rem) →
        s + rem = d.length)
    ∧ (∀ d f p, p ∈ (writerRun d f).trace →
        p ≤ d.length ∧ p + (d.length - p) = d.length) := by
  have hsuff : r.stdinBytes =
      stdin.map (fun d => (bytes_sent (writerRun d c.stdinOutcomes),
                           bytes_remaining (writerRun d c.stdinOutcomes))) := by
    cases hpl : pollLoop c timeout none fuel 0 none with
    | interrupted => exact absurd hpl (pollLoop_no_interrupt fuel 0 none)
    | fuelOut =>
        rw [run_process_fuelOut hpl] at hrun
        cases hrun
    | finished endT rc =>
        cases rc with
        | some v =>
            rw [run_process_finished_some hpl] at hrun
            cases hrun
            cases hok
            rfl
        | none =>
            cases htr : c.termResponds with
            | true =>
                rw [run_process_timeout_term hpl htr] at hrun
                cases hrun
                cases hok
                rfl
            | false =>
                cases hk : c.killResponds with
                | true =>
                    rw [run_process_timeout_kill hpl htr hk] at hrun
                    cases hrun
                    cases hok
                    rfl
                | false =>
                    rw [run_process_unkillable hpl htr hk] at hrun
                    cases hrun
                    cases hok
  refine ⟨?_, ?_, ?_⟩
  · rw [hsuff]
    cases stdin <;> rfl
  · intro d s rem hd hsb
    subst hd
    rw [hsuff] at hsb
    have hsb2 : (bytes_sent (writerRun d c.stdinOutcomes),
        bytes_remaining (writerRun d c.stdinOutcomes)) = (s, rem) :=
      Option.some.inj hsb
    injection hsb2 with hs hrem
    have hlen := writeLoop_bufferLen d c.stdinOutcomes 0 0 [] [0]
    have hle := writeLoop_pos_le d c.stdinOutcomes 0 0 [] [0] (by omega)
    unfold bytes_sent writerRun at hs
    unfold bytes_remaining writerRun at hrem
    omega
  · intro d f p hp
    have hle := writeLoop_trace_le d f 0 0 [] [0] (by omega) (by simp) p hp
    exact ⟨hle, by omega⟩

theorem stdin_byte_accounting_witness :
    run_process ⟨false⟩ ["x"] none (some [7, 8, 9])
        ⟨some 1, 0, true, -15, true, -9, "o", "e", fun _ => WOutcome.ok⟩
        none 5 =
      some ⟨Except.ok ⟨some 0, ["x"], "o", "e", false, 1, some (3, 0)⟩,
            [], true, true, true⟩
    ∧ ((Except.ok ⟨some 0, ["x"], "o", "e", false, 1, some (3, 0)⟩ :
          Except RunErr RunRec) =
        Except.ok ⟨some 0, ["x"], "o", "e", false, 1, some (3, 0)⟩)
    ∧ (((⟨some 0, ["x"], "o", "e", false, 1, some (3, 0)⟩ : RunRec).stdinBytes.isSome
          = (some [7, 8, 9]).isSome)
      ∧ (∀ d s rem, (some [7, 8, 9] : Option (List Nat)) = some d →
          (⟨some 0, ["x"], "o", "e", false, 1, some (3, 0)⟩ : RunRec).stdinBytes
            = some (s, rem) → s + rem = d.length)
      ∧ (∀ d f p, p ∈ (writerRun d f).trace →
          p ≤ d.length ∧ p + (d.length - p) = d.length)) := by
  have hrun : run_process ⟨false⟩ ["x"] none (some [7, 8, 9])
      ⟨some 1, 0, true, -15, true, -9, "o", "e", fun _ => WOutcome.ok⟩
      none 5 =
      some ⟨Except.ok ⟨some 0, ["x"], "o", "e", false, 1, some (3, 0)⟩,
            [], true, true, true⟩ := by
    have hpl : pollLoop
        ⟨some 1, 0, true, -15, true, -9, "o", "e", fun _ => WOutcome.ok⟩
        none none 5 0 none = LoopExit.finished 1 (some 0) := rfl
    have hw3 : writerRun [7, 8, 9] (fun _ : Nat => WOutcome.ok) =
        ⟨3, 3, true, true, [[7, 8, 9]], none, [0, 3]⟩ := by
      simp [writerRun, writeLoop, nextBlock]
    rw [run_process_finished_some hpl]
    simp [hw3, bytes_sent, bytes_remaining]
  exact ⟨hrun, rfl,
    stdin_byte_accounting ["x"] none (some [7, 8, 9])
      ⟨some 1, 0, true, -15, true, -9, "o", "e", fun _ => WOutcome.ok⟩ 5
      ⟨Except.ok ⟨some 0, ["x"], "o", "e", false, 1, some (3, 0)⟩,
       [], true, true, true⟩
      ⟨some 0, ["x"], "o", "e", false, 1, some (3, 0)⟩ hrun rfl⟩

/-- C10: a Stream Feed constructed on an empty payload performs no
writes at all (its chunk list is empty), immediately closes the stream
and reports finished with bytes-sent 0 and bytes-remaining 0; and
`run_process` invoked with an empty but non-absent payload still
requests an stdin pipe, still attaches a feed, and any record it
returns carries the byte-count pair `(0, 0)`. -/
theorem empty_payload_feed (f : Nat → WOutcome) (cmd : List String)
    (timeout : Option Nat) (c : ChildProc) (fuel : Nat) (o : RunOutcome) :
    writerRun [] f = ⟨0, 0, true, true, [], none, [0]⟩
    ∧ (run_process ⟨false⟩ cmd timeout (some []) c none fuel = some o →
        o.stdinPipe = true ∧ o.writerAttached = true
        ∧ (∀ r, o.result = Except.ok r → r.stdinBytes = some (0, 0))) := by
  constructor
  · simp [writerRun, writeLoop]
  · intro hrun
    have hw : writerRun ([] : List Nat) c.stdinOutcomes =
        ⟨0, 0, true, true, [], none, [0]⟩ := by
      simp [writerRun, writeLoop]
    have hpair : (bytes_sent (writerRun ([] : List Nat) c.stdinOutcomes),
        bytes_remaining (writerRun ([] : List Nat) c.stdinOutcomes)) = (0, 0) := by
      rw [hw]
      rfl
    cases hpl : pollLoop c timeout none fuel 0 none with
    | interrupted => exact absurd hpl (pollLoop_no_interrupt fuel 0 none)
    | fuelOut =>
        rw [run_process_fuelOut hpl] at hrun
        cases hrun
    | finished endT rc =>
        cases rc with
        | some v =>
            rw [run_process_finished_some hpl] at hrun
            cases hrun
            refine ⟨rfl, rfl, ?_⟩
            intro r hok
            cases hok
            exact congrArg some hpair
        | none =>
            cases htr : c.termResponds with
            | true =>
                rw [run_process_timeout_term hpl htr] at hrun
                cases hrun
                refine ⟨rfl, rfl, ?_⟩
                intro r hok
                cases hok
                exact congrArg some hpair
            | false =>
                cases hk : c.killResponds with
                | true =>
                    rw [run_process_timeout_kill hpl htr hk] at hrun
                    cases hrun
                    refine ⟨rfl, rfl, ?_⟩
                    intro r hok
                    cases hok
                    exact congrArg some hpair
                | false =>
                    rw [run_process_unkillable hpl htr hk] at hrun
                    cases hrun
                    refine ⟨rfl, rfl, ?_⟩
                    intro r hok
                    cases hok

theorem empty_payload_feed_witness :
    run_process ⟨false⟩ ["x"] none (some [])
        ⟨some 1, 0, true, -15, true, -9, "o", "e", fun _ => WOutcome.ok⟩
        none 5 =
      some ⟨Except.ok ⟨some 0, ["x"], "o", "e", false, 1, some (0, 0)⟩,
            [], true, true, true⟩
    ∧ (writerRun [] (fun _ : Nat => WOutcome.ok) =
        ⟨0, 0, true, true, [], none, [0]⟩
      ∧ (run_process ⟨false⟩ ["x"] none (some [])
            ⟨some 1, 0, true, -15, true, -9, "o", "e", fun _ => WOutcome.ok⟩
            none 5 =
          some ⟨Except.ok ⟨some 0, ["x"], "o", "e", false, 1, some (0, 0)⟩,
                [], true, true, true⟩ →
        (⟨Except.ok ⟨some 0, ["x"], "o", "e", false, 1, some (0, 0)⟩,
            [], true, true, true⟩ : RunOutcome).stdinPipe = true
        ∧ (⟨Except.ok ⟨some 0, ["x"], "o", "e", false, 1, some (0, 0)⟩,
            [], true, true, true⟩ : RunOutcome).writerAttached = true
        ∧ (∀ r, (⟨Except.ok ⟨some 0, ["x"], "o", "e", false, 1, some (0, 0)⟩,
            [], true, true, true⟩ : RunOutcome).result = Except.ok r →
            r.stdinBytes = some (0, 0)))) := by
  have hpl : pollLoop
      ⟨some 1, 0, true, -15, true, -9, "o", "e", fun _ => WOutcome.ok⟩
      none none 5 0 none = LoopExit.finished 1 (some 0) := rfl
  have hw0 : writerRun [] (fun _ : Nat => WOutcome.ok) =
      ⟨0, 0, true, true, [], none, [0]⟩ := by
    simp [writerRun, writeLoop]
  have hrun : run_process ⟨false⟩ ["x"] none (some [])
      ⟨some 1, 0, true, -15, true, -9, "o", "e", fun _ => WOutcome.ok⟩
      none 5 =
      some ⟨Except.ok ⟨some 0, ["x"], "o", "e", false, 1, some (0, 0)⟩,
            [], true, true, true⟩ := by
    rw [run_process_finished_some hpl]
    simp [hw0, bytes_sent, bytes_remaining]
  exact ⟨hrun,
    empty_payload_feed (fun _ => WOutcome.ok) ["x"] none
      ⟨some 1, 0, true, -15, true, -9, "o", "e", fun _ => WOutcome.ok⟩ 5
      ⟨Except.ok ⟨some 0, ["x"], "o", "e", false, 1, some (0, 0)⟩,
       [], true, true, true⟩⟩

/-- If the child has not exited by tick `k`, the deadline (if any) has
not passed by then, and the step budget reaches `k`, then the sleep at
tick `k` is interrupted and the polling loop ends in the interrupt
branch. -/
theorem pollLoop_interrupt_reached {c : ChildProc} {timeout : Option Nat}
    {k : Nat}
    (hex : ∀ e, c.exitAt = some e → k < e)
    (htm : ∀ t, t ≤ k → timeoutNotReached timeout t = true) :
    ∀ fuel now, now ≤ k → k < fuel + now →
      pollLoop c timeout (some k) fuel now none = LoopExit.interrupted := by
  intro fuel
  induction fuel with
  | zero =>
      intro now h1 h2
      omega
  | succ n ih =>
      intro now h1 h2
      by_cases hnow : now = k
      · rw [pollLoop, if_pos ⟨rfl, htm now h1⟩,
          if_pos (by rw [hnow])]
      · rw [pollLoop, if_pos ⟨rfl, htm now h1⟩,
          if_neg (fun hcon => hnow (Option.some.inj hcon).symm)]
        have hpoll : natPoll c (now + 1) = none := by
          rcases hx : c.exitAt with _ | e
          · exact natPoll_none hx (now + 1)
          · rw [natPoll_eq hx, if_neg]
            have := hex e hx
            omega
        rw [hpoll]
        exact ih (now + 1) (by omega) (by omega)

/-- C1: on a real (non-dummy) invocation, the record's timed-out flag
is true iff a deadline was configured and elapsed before a poll could
observe the natural exit; whenever it is true a terminate signal was
sent before the record was built, and when it is false no signal was
sent at all.  With no deadline configured the supervisor never sends a
signal, never reports a timeout, and — if the child never exits — polls
forever (every step budget is exhausted with no result).  A timeout is
reported inside the record, never raised: whenever the child responds
to terminate, every completed invocation returns a record. -/
theorem run_process_timeout_semantics (cmd : List String)
    (stdin : Option (List Nat)) (c : ChildProc) :
    (∀ timeout fuel o r,
      run_process ⟨false⟩ cmd timeout stdin c none fuel = some o →
      o.result = Except.ok r →
      ((r.timedOut = true ↔ ∃ m, timeout = some m ∧ deadlineBeatsExit c m)
       ∧ (r.timedOut = true → Signal.terminate ∈ o.signals)
       ∧ (r.timedOut = false → o.signals = [])))
    ∧ (∀ fuel o,
      run_process ⟨false⟩ cmd none stdin c none fuel = some o →
      o.signals = [] ∧ ∀ r, o.result = Except.ok r → r.timedOut = false)
    ∧ (c.exitAt = none →
      ∀ fuel, run_process ⟨false⟩ cmd none stdin c none fuel = none)
    ∧ (∀ timeout fuel o, c.termResponds = true →
      run_process ⟨false⟩ cmd timeout stdin c none fuel = some o →
      ∃ r, o.result = Except.ok r) := by
  refine ⟨?_, ?_, ?_, ?_⟩
  · intro timeout fuel o r hrun hok
    cases hpl : pollLoop c timeout none fuel 0 none with
    | interrupted => exact absurd hpl (pollLoop_no_interrupt fuel 0 none)
    | fuelOut =>
        rw [run_process_fuelOut hpl] at hrun
        cases hrun
    | finished endT rc =>
        have hiff := pollLoop_finished_rc_none_iff hpl
        cases rc with
        | some v =>
            rw [run_process_finished_some hpl] at hrun
            cases hrun
            cases hok
            refine ⟨⟨fun hcon => Bool.noConfusion hcon, fun hex => ?_⟩,
                    fun hcon => Bool.noConfusion hcon, fun _ => rfl⟩
            exact absurd (hiff.mpr hex) (by simp)
        | none =>
            have hex := hiff.mp rfl
            cases htr : c.termResponds with
            | true =>
                rw [run_process_timeout_term hpl htr] at hrun
                cases hrun
                cases hok
                exact ⟨⟨fun _ => hex, fun _ => rfl⟩,
                       fun _ => List.mem_singleton.mpr rfl,
                       fun hcon => Bool.noConfusion hcon⟩
            | false =>
                cases hk : c.killResponds with
                | true =>
                    rw [run_process_timeout_kill hpl htr hk] at hrun
                    cases hrun
                    cases hok
                    exact ⟨⟨fun _ => hex, fun _ => rfl⟩,
                           fun _ => List.mem_cons_self Signal.terminate _,
                           fun hcon => Bool.noConfusion hcon⟩
                | false =>
                    rw [run_process_unkillable hpl htr hk] at hrun
                    cases hrun
                    cases hok
  · intro fuel o hrun
    cases hpl : pollLoop c none none fuel 0 none with
    | interrupted => exact absurd hpl (pollLoop_no_interrupt fuel 0 none)
    | fuelOut =>
        rw [run_process_fuelOut hpl] at hrun
        cases hrun
    | finished endT rc =>
        have hsome := pollLoop_noTimeout_finished_some fuel 0 endT rc hpl
        subst hsome
        rw [run_process_finished_some hpl] at hrun
        cases hrun
        refine ⟨rfl, ?_⟩
        intro r hok
        cases hok
        rfl
  · intro he fuel
    exact run_process_fuelOut (pollLoop_noTimeout_noExit he fuel 0)
  · intro timeout fuel o htr hrun
    cases hpl : pollLoop c timeout none fuel 0 none with
    | interrupted => exact absurd hpl (pollLoop_no_interrupt fuel 0 none)
    | fuelOut =>
        rw [run_process_fuelOut hpl] at hrun
        cases hrun
    | finished endT rc =>
        cases rc with
        | some v =>
            rw [run_process_finished_some hpl] at hrun
            cases hrun
            exact ⟨_, rfl⟩
        | none =>
            rw [run_process_timeout_term hpl htr] at hrun
            cases hrun
            exact ⟨_, rfl⟩

theorem run_process_timeout_semantics_witness :
    (∀ timeout fuel o r,
      run_process ⟨false⟩ ["x"] timeout none sampleChild none fuel = some o →
      o.result = Except.ok r →
      ((r.timedOut = true ↔
          ∃ m, timeout = some m ∧ deadlineBeatsExit sampleChild m)
       ∧ (r.timedOut = true → Signal.terminate ∈ o.signals)
       ∧ (r.timedOut = false → o.signals = [])))
    ∧ (∀ fuel o,
      run_process ⟨false⟩ ["x"] none none sampleChild none fuel = some o →
      o.signals = [] ∧ ∀ r, o.result = Except.ok r → r.timedOut = false)
    ∧ (sampleChild.exitAt = none →
      ∀ fuel, run_process ⟨false⟩ ["x"] none none sampleChild none fuel = none)
    ∧ (∀ timeout fuel o, sampleChild.termResponds = true →
      run_process ⟨false⟩ ["x"] timeout none sampleChild none fuel = some o →
      ∃ r, o.result = Except.ok r) :=
  run_process_timeout_semantics ["x"] none sampleChild

/-- C8, counterexample: the simulate/dummy mode of `run_process` is
read from the process-wide mutable global `dummy` (procrunner.py line
8/104), not from an argument of the invocation.  Two invocations with
identical arguments but different global state take different modes
and return different results: under `dummy = True` nothing is spawned
and the canonical empty record is returned, under `dummy = False` the
child is spawned and its real exit code reported. -/
theorem dummy_mode_global_cex :
    run_process ⟨true⟩ ["p"] none none sampleChild none 5 =
      some ⟨Except.ok ⟨some 0, ["p"], "", "", false, 0, none⟩,
            [], false, false, false⟩
    ∧ run_process ⟨false⟩ ["p"] none none sampleChild none 5 =
      some ⟨Except.ok ⟨some 7, ["p"], "o", "e", false, 1, none⟩,
            [], true, false, false⟩ :=
  ⟨rfl, rfl⟩

/-- C8, amended: the mode of an invocation is determined by the
process-wide mutable global `dummy` (so two invocations with identical
arguments may take different modes if the global changes between
them); when the global selects dummy mode, `run_process`
short-circuits without spawning anything and returns the canonical
empty result (exit code 0, empty stdout and stderr, timed-out false,
runtime 0), and when it does not, a real child is always spawned — the
short-circuit is never taken as an implicit fallback on error. -/
theorem dummy_mode_semantics (g : Globals) (cmd : List String)
    (timeout : Option Nat) (stdin : Option (List Nat)) (c : ChildProc)
    (iAt : Option Nat) (fuel : Nat) :
    (g.dummy = true →
      run_process g cmd timeout stdin c iAt fuel =
        some ⟨Except.ok ⟨some 0, cmd, "", "", false, 0, none⟩,
              [], false, stdin.isSome, false⟩)
    ∧ (g.dummy = false → ∀ o,
      run_process g cmd timeout stdin c iAt fuel = some o →
      o.spawned = true) := by
  obtain ⟨d⟩ := g
  constructor
  · intro hd
    cases hd
    exact run_process_dummy cmd timeout stdin c iAt fuel
  · intro hd o hrun
    cases hd
    cases hpl : pollLoop c timeout iAt fuel 0 none with
    | fuelOut =>
        rw [run_process_fuelOut hpl] at hrun
        cases hrun
    | interrupted =>
        rw [run_process_interrupted hpl] at hrun
        cases hrun
        rfl
    | finished endT rc =>
        cases rc with
        | some v =>
            rw [run_process_finished_some hpl] at hrun
            cases hrun
            rfl
        | none =>
            cases htr : c.termResponds with
            | true =>
                rw [run_process_timeout_term hpl htr] at hrun
                cases hrun
                rfl
            | false =>
                cases hk : c.killResponds with
                | true =>
                    rw [run_process_timeout_kill hpl htr hk] at hrun
                    cases hrun
                    rfl
                | false =>
                    rw [run_process_unkillable hpl htr hk] at hrun
                    cases hrun
                    rfl

theorem dummy_mode_semantics_witness :
    ((⟨true⟩ : Globals).dummy = true →
      run_process ⟨true⟩ ["p"] none none sampleChild none 5 =
        some ⟨Except.ok ⟨some 0, ["p"], "", "", false, 0, none⟩,
              [], false, (none : Option (List Nat)).isSome, false⟩)
    ∧ ((⟨true⟩ : Globals).dummy = false → ∀ o,
      run_process ⟨true⟩ ["p"] none none sampleChild none 5 = some o →
      o.spawned = true) :=
  dummy_mode_semantics ⟨true⟩ ["p"] none none sampleChild none 5

/-- C9: if the supervising thread receives a keyboard interrupt during
a sleep of its polling loop (here: at tick `k`, reached because the
child has not exited and the deadline has not passed by then), it
sends a kill signal to the child and then re-raises the interrupt to
the caller — it never propagates the interrupt with the child still
running and unsignalled. -/
theorem interrupt_kills_child (cmd : List String) (timeout : Option Nat)
    (stdin : Option (List Nat)) (c : ChildProc) (fuel k : Nat)
    (hex : ∀ e, c.exitAt = some e → k < e)
    (hto : timeout = none ∨ ∃ m, timeout = some m ∧ k < m)
    (hfuel : k < fuel) :
    run_process ⟨false⟩ cmd timeout stdin c (some k) fuel =
      some ⟨Except.error RunErr.keyboardInterrupt, [Signal.kill],
            true, stdin.isSome, stdin.isSome⟩ := by
  have htm : ∀ t, t ≤ k → timeoutNotReached timeout t = true := by
    intro t ht
    rcases hto with h | ⟨m, hm, hkm⟩
    · rw [h]
      rfl
    · rw [hm]
      unfold timeoutNotReached
      simp
      omega
  exact run_process_interrupted
    (pollLoop_interrupt_reached hex htm fuel 0 (by omega) (by omega))

theorem interrupt_kills_child_witness :
    (∀ e, sampleChild.exitAt = some e → 0 < e)
    ∧ ((none : Option Nat) = none ∨ ∃ m, (none : Option Nat) = some m ∧ 0 < m)
    ∧ 0 < 3
    ∧ run_process ⟨false⟩ ["x"] none none sampleChild (some 0) 3 =
        some ⟨Except.error RunErr.keyboardInterrupt, [Signal.kill],
              true, false, false⟩ :=
  ⟨by intro e he; simp [sampleChild] at he; omega,
   Or.inl rfl,
   by omega,
   interrupt_kills_child ["x"] none none sampleChild 3 0
     (by intro e he; simp [sampleChild] at he; omega)
     (Or.inl rfl)
     (by omega)⟩

/-! ### Lemmas about the refined model with output collection -/

theorem readLoop_closed_false :
    ∀ (events : List ReadResult) (buf : String),
      (readLoop events buf).closed = false := by
  intro events
  induction events with
  | nil =>
      intro buf
      rfl
  | cons x rest ih =>
      intro buf
      cases x with
      | ioerror => rfl
      | line s =>
          by_cases hs : s = ""
          · simp [readLoop, hs]
          · simp [readLoop, hs, ih]

/-- Either both drains have finished and collection returns their full
buffers, or at least one has not and the first unfinished one raises
`thread did not terminate`. -/
theorem collectOutputs_cases (soutE serrE : List ReadResult) :
    ((readLoop soutE "").terminated = true
      ∧ (readLoop serrE "").terminated = true
      ∧ collectOutputs soutE serrE =
          Except.ok ((readLoop soutE "").buffer, (readLoop serrE "").buffer))
    ∨ (((readLoop soutE "").terminated = false
        ∨ (readLoop serrE "").terminated = false)
      ∧ collectOutputs soutE serrE =
          Except.error ReaderErr.threadNotTerminated) := by
  have hso := readLoop_closed_false soutE ""
  have hse := readLoop_closed_false serrE ""
  cases hto : (readLoop soutE "").terminated with
  | false =>
      right
      refine ⟨Or.inl rfl, ?_⟩
      unfold collectOutputs get_output has_finished
      simp [hto]
  | true =>
      cases hte : (readLoop serrE "").terminated with
      | false =>
          right
          refine ⟨Or.inr rfl, ?_⟩
          unfold collectOutputs get_output has_finished
          simp [hto, hte, hso, hse]
      | true =>
          left
          refine ⟨rfl, rfl, ?_⟩
          unfold collectOutputs get_output has_finished
          simp [hto, hte, hso, hse]

theorem collect_fuelOut {cmd : List String} {timeout : Option Nat}
    {stdin : Option (List Nat)} {c : ChildProc}
    {soutE serrE : List ReadResult} {iAt : Option Nat} {fuel : Nat}
    (hpl : pollLoop c timeout iAt fuel 0 none = LoopExit.fuelOut) :
    run_process_collect ⟨false⟩ cmd timeout stdin c soutE serrE iAt fuel =
      none := by
  unfold run_process_collect
  simp [hpl]

theorem collect_finished_some_ok {cmd : List String} {timeout : Option Nat}
    {stdin : Option (List Nat)} {c : ChildProc}
    {soutE serrE : List ReadResult} {iAt : Option Nat}
    {fuel endT : Nat} {v : Int} {sout serr : String}
    (hpl : pollLoop c timeout iAt fuel 0 none = LoopExit.finished endT (some v))
    (hc : collectOutputs soutE serrE = Except.ok (sout, serr)) :
    run_process_collect ⟨false⟩ cmd timeout stdin c soutE serrE iAt fuel =
      some ⟨Except.ok ⟨some v, cmd, sout, serr, false, endT,
              stdin.map (fun d => (bytes_sent (writerRun d c.stdinOutcomes),
                                   bytes_remaining (writerRun d c.stdinOutcomes)))⟩,
            [], true, stdin.isSome, stdin.isSome⟩ := by
  unfold run_process_collect
  simp [hpl, hc, Option.map_map]
  rfl

theorem collect_finished_some_err {cmd : List String} {timeout : Option Nat}
    {stdin : Option (List Nat)} {c : ChildProc}
    {soutE serrE : List ReadResult} {iAt : Option Nat}
    {fuel endT : Nat} {v : Int} {e : ReaderErr}
    (hpl : pollLoop c timeout iAt fuel 0 none = LoopExit.finished endT (some v))
    (hc : collectOutputs soutE serrE = Except.error e) :
    run_process_collect ⟨false⟩ cmd timeout stdin c soutE serrE iAt fuel =
      some ⟨Except.error (RunExn.readerRaised e), [],
            true, stdin.isSome, stdin.isSome⟩ := by
  unfold run_process_collect
  simp [hpl, hc]

theorem collect_timeout_term_ok {cmd : List String} {timeout : Option Nat}
    {stdin : Option (List Nat)} {c : ChildProc}
    {soutE serrE : List ReadResult} {iAt : Option Nat}
    {fuel endT : Nat} {sout serr : String}
    (hpl : pollLoop c timeout iAt fuel 0 none = LoopExit.finished endT none)
    (htr : c.termResponds = true)
    (hc : collectOutputs soutE serrE = Except.ok (sout, serr)) :
    run_process_collect ⟨false⟩ cmd timeout stdin c soutE serrE iAt fuel =
      some ⟨Except.ok ⟨some c.termCode, cmd, sout, serr, true, endT,
              stdin.map (fun d => (bytes_sent (writerRun d c.stdinOutcomes),
                                   bytes_remaining (writerRun d c.stdinOutcomes)))⟩,
            [Signal.terminate], true, stdin.isSome, stdin.isSome⟩ := by
  unfold run_process_collect
  simp [hpl, htr, hc, Option.map_map]
  rfl

theorem collect_timeout_term_err {cmd : List String} {timeout : Option Nat}
    {stdin : Option (List Nat)} {c : ChildProc}
    {soutE serrE : List ReadResult} {iAt : Option Nat}
    {fuel endT : Nat} {e : ReaderErr}
    (hpl : pollLoop c timeout iAt fuel 0 none = LoopExit.finished endT none)
    (htr : c.termResponds = true)
    (hc : collectOutputs soutE serrE = Except.error e) :
    run_process_collect ⟨false⟩ cmd timeout stdin c soutE serrE iAt fuel =
      some ⟨Except.error (RunExn.readerRaised e), [Signal.terminate],
            true, stdin.isSome, stdin.isSome⟩ := by
  unfold run_process_collect
  simp [hpl, htr, hc]

theorem collect_timeout_kill_ok {cmd : List String} {timeout : Option Nat}
    {stdin : Option (List Nat)} {c : ChildProc}
    {soutE serrE : List ReadResult} {iAt : Option Nat}
    {fuel endT : Nat} {sout serr : String}
    (hpl : pollLoop c timeout iAt fuel 0 none = LoopExit.finished endT none)
    (htr : c.termResponds = false) (hk : c.killResponds = true)
    (hc : collectOutputs soutE serrE = Except.ok (sout, serr)) :
    run_process_collect ⟨false⟩ cmd timeout stdin c soutE serrE iAt fuel =
      some ⟨Except.ok ⟨some c.killCode, cmd, sout, serr, true, endT,
              stdin.map (fun d => (bytes_sent (writerRun d c.stdinOutcomes),
                                   bytes_remaining (writerRun d c.stdinOutcomes)))⟩,
            [Signal.terminate, Signal.kill], true, stdin.isSome, stdin.isSome⟩ := by
  unfold run_process_collect
  simp [hpl, htr, hk, hc, Option.map_map]
  rfl

theorem collect_timeout_kill_err {cmd : List String} {timeout : Option Nat}
    {stdin : Option (List Nat)} {c : ChildProc}
    {soutE serrE : List ReadResult} {iAt : Option Nat}
    {fuel endT : Nat} {e : ReaderErr}
    (hpl : pollLoop c timeout iAt fuel 0 none = LoopExit.finished endT none)
    (htr : c.termResponds = false) (hk : c.killResponds = true)
    (hc : collectOutputs soutE serrE = Except.error e) :
    run_process_collect ⟨false⟩ cmd timeout stdin c soutE serrE iAt fuel =
      some ⟨Except.error (RunExn.readerRaised e),
            [Signal.terminate, Signal.kill], true, stdin.isSome, stdin.isSome⟩ := by
  unfold run_process_collect
  simp [hpl, htr, hk, hc]

/-- The unkillable branch raises at line 161, before output collection:
the reader events play no role there. -/
theorem collect_unkillable {cmd : List String} {timeout : Option Nat}
    {stdin : Option (List Nat)} {c : ChildProc}
    {soutE serrE : List ReadResult} {iAt : Option Nat} {fuel endT : Nat}
    (hpl : pollLoop c timeout iAt fuel 0 none = LoopExit.finished endT none)
    (htr : c.termResponds = false) (hk : c.killResponds = false) :
    run_process_collect ⟨false⟩ cmd timeout stdin c soutE serrE iAt fuel =
      some ⟨Except.error RunExn.wontTerminate,
            [Signal.terminate, Signal.kill], true, stdin.isSome, stdin.isSome⟩ := by
  unfold run_process_collect
  simp [hpl, htr, hk]

theorem collect_conjuncts_of_ok {c : ChildProc} {timeout : Option Nat}
    {soutE serrE : List ReadResult} {o : RunOutcomeC} {r0 : RunRec}
    (hnU : ¬ unkillableCond c timeout)
    (hto : (readLoop soutE "").terminated = true)
    (hte : (readLoop serrE "").terminated = true)
    (hres : o.result = Except.ok r0)
    (hcode : r0.exitcode.isSome = true) :
    (o.result = Except.error RunExn.wontTerminate ↔ unkillableCond c timeout)
    ∧ ((∃ e, o.result = Except.error (RunExn.readerRaised e)) ↔
        (¬ unkillableCond c timeout
         ∧ ((readLoop soutE "").terminated = false
            ∨ (readLoop serrE "").terminated = false)))
    ∧ ((∃ r, o.result = Except.ok r) ↔
        (¬ unkillableCond c timeout
         ∧ (readLoop soutE "").terminated = true
         ∧ (readLoop serrE "").terminated = true))
    ∧ (∀ r, o.result = Except.ok r → r.exitcode.isSome = true) := by
  rw [hres]
  refine ⟨⟨fun hcon => Except.noConfusion hcon, fun hU => absurd hU hnU⟩,
          ⟨?_, ?_⟩, ⟨fun _ => ⟨hnU, hto, hte⟩, fun _ => ⟨r0, rfl⟩⟩, ?_⟩
  · rintro ⟨e, hcon⟩
    exact Except.noConfusion hcon
  · rintro ⟨-, hd | hd⟩
    · rw [hto] at hd
      exact Bool.noConfusion hd
    · rw [hte] at hd
      exact Bool.noConfusion hd
  · intro r hok
    cases hok
    exact hcode

theorem collect_conjuncts_of_readerErr {c : ChildProc} {timeout : Option Nat}
    {soutE serrE : List ReadResult} {o : RunOutcomeC}
    (hnU : ¬ unkillableCond c timeout)
    (hd : (readLoop soutE "").terminated = false
        ∨ (readLoop serrE "").terminated = false)
    (hres : o.result =
      Except.error (RunExn.readerRaised ReaderErr.threadNotTerminated)) :
    (o.result = Except.error RunExn.wontTerminate ↔ unkillableCond c timeout)
    ∧ ((∃ e, o.result = Except.error (RunExn.readerRaised e)) ↔
        (¬ unkillableCond c timeout
         ∧ ((readLoop soutE "").terminated = false
            ∨ (readLoop serrE "").terminated = false)))
    ∧ ((∃ r, o.result = Except.ok r) ↔
        (¬ unkillableCond c timeout
         ∧ (readLoop soutE "").terminated = true
         ∧ (readLoop serrE "").terminated = true))
    ∧ (∀ r, o.result = Except.ok r → r.exitcode.isSome = true) := by
  rw [hres]
  refine ⟨⟨fun hcon => ?_, fun hU => absurd hU hnU⟩,
          ⟨fun _ => ⟨hnU, hd⟩,
           fun _ => ⟨ReaderErr.threadNotTerminated, rfl⟩⟩,
          ⟨?_, ?_⟩, ?_⟩
  · exact RunExn.noConfusion (Except.error.inj hcon)
  · rintro ⟨r, hcon⟩
    exact Except.noConfusion hcon
  · rintro ⟨-, hto', hte'⟩
    rcases hd with hd | hd
    · rw [hto'] at hd
      exact Bool.noConfusion hd
    · rw [hte'] at hd
      exact Bool.noConfusion hd
  · intro r hok
    exact Except.noConfusion hok

theorem collect_conjuncts_of_unkillable {c : ChildProc} {timeout : Option Nat}
    {soutE serrE : List ReadResult} {o : RunOutcomeC}
    (hU : unkillableCond c timeout)
    (hres : o.result = Except.error RunExn.wontTerminate) :
    (o.result = Except.error RunExn.wontTerminate ↔ unkillableCond c timeout)
    ∧ ((∃ e, o.result = Except.error (RunExn.readerRaised e)) ↔
        (¬ unkillableCond c timeout
         ∧ ((readLoop soutE "").terminated = false
            ∨ (readLoop serrE "").terminated = false)))
    ∧ ((∃ r, o.result = Except.ok r) ↔
        (¬ unkillableCond c timeout
         ∧ (readLoop soutE "").terminated = true
         ∧ (readLoop serrE "").terminated = true))
    ∧ (∀ r, o.result = Except.ok r → r.exitcode.isSome = true) := by
  rw [hres]
  refine ⟨⟨fun _ => hU, fun _ => rfl⟩,
          ⟨?_, fun hx => absurd hU hx.1⟩,
          ⟨?_, fun hx => absurd hU hx.1⟩, ?_⟩
  · rintro ⟨e, hcon⟩
    exact RunExn.noConfusion (Except.error.inj hcon)
  · rintro ⟨r, hcon⟩
    exact Except.noConfusion hcon
  · intro r hok
    exact Except.noConfusion hok

/-- C2, counterexample: the source `run_process` can raise even though
the child was never alive past its escalation — indeed without any
escalation at all.  With a child that exits naturally at tick 1
(observed by the loop: no signal is ever sent) but whose stdout stream
raises a read error, the stdout drain never finishes, so the
collection step of lines 168-169 raises `thread did not terminate` to
the caller instead of returning a record — refuting "raises if and
only if the process is still alive after the full escalation
sequence". -/
theorem run_process_reader_error_cex :
    pollLoop sampleChild none none 5 0 none = LoopExit.finished 1 (some 7)
    ∧ run_process_collect ⟨false⟩ ["x"] none none sampleChild
        [ReadResult.ioerror] [] none 5 =
      some ⟨Except.error (RunExn.readerRaised ReaderErr.threadNotTerminated),
            [], true, false, false⟩ :=
  ⟨rfl, rfl⟩

/-- C2, amended: `run_process` raises an error to the caller iff the
process is still alive after the full escalation sequence (graceful
terminate plus grace period, then forceful kill plus grace period), or
an output drain has not finished when the output is collected at lines
168-169 — which is deterministically the case after a stream read
error; in every other outcome — including non-zero exit and timeout —
it returns a normal result record in which exit_code is present (an
integer, never absent). -/
theorem run_process_collect_error_conditions (cmd : List String)
    (timeout : Option Nat) (stdin : Option (List Nat)) (c : ChildProc)
    (soutE serrE : List ReadResult) (fuel : Nat) (o : RunOutcomeC)
    (hrun : run_process_collect ⟨false⟩ cmd timeout stdin c soutE serrE
      none fuel = some o) :
    (o.result = Except.error RunExn.wontTerminate ↔ unkillableCond c timeout)
    ∧ ((∃ e, o.result = Except.error (RunExn.readerRaised e)) ↔
        (¬ unkillableCond c timeout
         ∧ ((readLoop soutE "").terminated = false
            ∨ (readLoop serrE "").terminated = false)))
    ∧ ((∃ r, o.result = Except.ok r) ↔
        (¬ unkillableCond c timeout
         ∧ (readLoop soutE "").terminated = true
         ∧ (readLoop serrE "").terminated = true))
    ∧ (∀ r, o.result = Except.ok r → r.exitcode.isSome = true) := by
  cases hpl : pollLoop c timeout none fuel 0 none with
  | interrupted => exact absurd hpl (pollLoop_no_interrupt fuel 0 none)
  | fuelOut =>
      rw [collect_fuelOut hpl] at hrun
      cases hrun
  | finished endT rc =>
      have hiff := pollLoop_finished_rc_none_iff hpl
      cases rc with
      | some v =>
          have hnU : ¬ unkillableCond c timeout := by
            intro hU
            exact Option.noConfusion (hiff.mpr hU.1)
          rcases collectOutputs_cases soutE serrE with
            ⟨hto, hte, hc⟩ | ⟨hd, hc⟩
          · rw [collect_finished_some_ok hpl hc] at hrun
            cases hrun
            exact collect_conjuncts_of_ok hnU hto hte rfl rfl
          · rw [collect_finished_some_err hpl hc] at hrun
            cases hrun
            exact collect_conjuncts_of_readerErr hnU hd rfl
      | none =>
          have hU0 := hiff.mp rfl
          cases htr : c.termResponds with
          | true =>
              have hnU : ¬ unkillableCond c timeout := by
                intro hU
                exact absurd hU.2.1 (by simp [htr])
              rcases collectOutputs_cases soutE serrE with
                ⟨hto, hte, hc⟩ | ⟨hd, hc⟩
              · rw [collect_timeout_term_ok hpl htr hc] at hrun
                cases hrun
                exact collect_conjuncts_of_ok hnU hto hte rfl rfl
              · rw [collect_timeout_term_err hpl htr hc] at hrun
                cases hrun
                exact collect_conjuncts_of_readerErr hnU hd rfl
          | false =>
              cases hk : c.killResponds with
              | true =>
                  have hnU : ¬ unkillableCond c timeout := by
                    intro hU
                    exact absurd hU.2.2 (by simp [hk])
                  rcases collectOutputs_cases soutE serrE with
                    ⟨hto, hte, hc⟩ | ⟨hd, hc⟩
                  · rw [collect_timeout_kill_ok hpl htr hk hc] at hrun
                    cases hrun
                    exact collect_conjuncts_of_ok hnU hto hte rfl rfl
                  · rw [collect_timeout_kill_err hpl htr hk hc] at hrun
                    cases hrun
                    exact collect_conjuncts_of_readerErr hnU hd rfl
              | false =>
                  rw [collect_unkillable hpl htr hk] at hrun
                  cases hrun
                  exact collect_conjuncts_of_unkillable ⟨hU0, htr, hk⟩ rfl

theorem run_process_collect_error_conditions_witness :
    run_process_collect ⟨false⟩ ["x"] none none sampleChild
        [ReadResult.line "o"] [] none 5 =
      some ⟨Except.ok ⟨some 7, ["x"], "o", "", false, 1, none⟩,
            [], true, false, false⟩
    ∧ (((⟨Except.ok ⟨some 7, ["x"], "o", "", false, 1, none⟩,
          [], true, false, false⟩ : RunOutcomeC).result =
            Except.error RunExn.wontTerminate ↔
          unkillableCond sampleChild none)
      ∧ ((∃ e, (⟨Except.ok ⟨some 7, ["x"], "o", "", false, 1, none⟩,
            [], true, false, false⟩ : RunOutcomeC).result =
              Except.error (RunExn.readerRaised e)) ↔
          (¬ unkillableCond sampleChild none
           ∧ ((readLoop [ReadResult.line "o"] "").terminated = false
              ∨ (readLoop [] "").terminated = false)))
      ∧ ((∃ r, (⟨Except.ok ⟨some 7, ["x"], "o", "", false, 1, none⟩,
            [], true, false, false⟩ : RunOutcomeC).result = Except.ok r) ↔
          (¬ unkillableCond sampleChild none
           ∧ (readLoop [ReadResult.line "o"] "").terminated = true
           ∧ (readLoop [] "").terminated = true))
      ∧ (∀ r, (⟨Except.ok ⟨some 7, ["x"], "o", "", false, 1, none⟩,
          [], true, false, false⟩ : RunOutcomeC).result = Except.ok r →
          r.exitcode.isSome = true)) :=
  ⟨rfl, run_process_collect_error_conditions ["x"] none none sampleChild
    [ReadResult.line "o"] [] 5
    ⟨Except.ok ⟨some 7, ["x"], "o", "", false, 1, none⟩,
     [], true, false, false⟩ rfl⟩
